import Mathlib

/-!
Verification of the ONS statistics-API client examples.

Shallow embedding of the core logic of the four scripts:
* `examples/01_list_datasets.py` — offset/limit pagination loop (`get_all_datasets`);
* `examples/02_explore_dimensions.py` — edition resolution preferring
  `"time-series"` (`get_latest_version_url`) and dimension/option discovery
  (`explore_dimensions`);
* `examples/03_download_timeseries.py` — edition resolution with exceptions
  (`get_edition_url_03`) and observation download/sorting
  (`download_observations`);
* `examples/04_batch_download.py` — retrying HTTP getter (`get_json`),
  filename slugging (`label_to_filename`), edition resolution returning
  `Option` (`get_edition_url`) and observation download/sorting
  (`get_observations`).

Network I/O is represented by injected values/functions: an HTTP response is
`Option`/`Except`-wrapped data (`none` / `.error` = transport failure or falsy
body), and a paginated server is a function from the requested offset to the
page it serves.  Python dicts reached through `.get` chains are flattened into
typed structures whose `Option` fields model the missing-key/`None` cases; a
field that the scripts reach through bracket indexing (which raises `KeyError`
when absent) is modelled by the same `Option` field, with the raising consumer
returning `Except.error`.
-/

namespace OnsApi

/-! ### 01_list_datasets.py : `get_all_datasets`

The `while True` pagination loop.  The server (`requests.get` on the datasets
endpoint with the current `offset`) is an injected function from offset to the
`items` list of the returned page.  The loop is embedded with explicit fuel;
all theorems assume enough fuel for the loop to reach its `break`.  Beside the
collected items we also count the number of GET requests issued. -/

/-- One iteration step of the pagination loop of `get_all_datasets`:
fetch the page at `offset`; stop on an empty page, otherwise collect the
items and advance `offset` by the page's length.  Returns the collected
items together with the number of requests issued. -/
def getAllDatasetsGo {α : Type} (server : Nat → List α) : Nat → Nat → List α × Nat
  | 0, _ => ([], 0)
  | fuel + 1, offset =>
    let page := server offset
    if page.isEmpty then ([], 1)
    else
      let r := getAllDatasetsGo server fuel (offset + page.length)
      (page ++ r.1, r.2 + 1)

/-- `get_all_datasets` (01_list_datasets.py): run the pagination loop from
offset 0. -/
def get_all_datasets {α : Type} (server : Nat → List α) (fuel : Nat) : List α × Nat :=
  getAllDatasetsGo server fuel 0

/-- A simulated paginated listing holding `items`: the page served at
`offset` is the next `P` items (fewer on the terminal page, empty past the
end), as the ONS `/datasets?offset&limit` endpoint does with `limit = P`
(the script uses `limit = 50`). -/
def sliceServer {α : Type} (items : List α) (P : Nat) (offset : Nat) : List α :=
  (items.drop offset).take P

/-- `⌈n / p⌉` on naturals. -/
def ceilDiv (n p : Nat) : Nat := (n + p - 1) / p

/-! ### 04_batch_download.py : `get_json`

The retrying getter.  The network is injected as `client : Nat → Option J`
giving the outcome of attempt number `i` (`none` = any exception raised by
`requests.get` / `raise_for_status` / `.json()`).  The embedding also sums
the `time.sleep(2 ** attempt)` durations so the total backoff is provable.
The first argument of `getJsonGo` counts the remaining attempts (initially
`retries = 3`), the second is the current attempt index. -/

/-- The retry loop of `get_json`: with `remaining + 1` attempts left, try
attempt `attempt`; on success return the JSON with no further sleep, on
failure either give up (last attempt) or sleep `2 ^ attempt` seconds and
retry.  Returns the result together with the accumulated sleep time. -/
def getJsonGo {J : Type} (client : Nat → Option J) : Nat → Nat → Option J × Nat
  | 0, _ => (none, 0)
  | remaining + 1, attempt =>
    match client attempt with
    | some j => (some j, 0)
    | none =>
      if remaining = 0 then (none, 0)
      else
        let r := getJsonGo client remaining (attempt + 1)
        (r.1, 2 ^ attempt + r.2)

/-- `get_json` (04_batch_download.py) with its default `retries = 3`:
the parsed JSON (or `none` after exhausting retries) together with the
total backoff delay slept. -/
def get_json {J : Type} (client : Nat → Option J) : Option J × Nat :=
  getJsonGo client 3 0

/-! ### 04_batch_download.py : `label_to_filename`

`label.lower()`, the three literal replacements, `re.sub(r"[^a-z0-9]+", "_", s)`
and `s.strip("_")`, written over `List Char`.  `Char.toLower` models
`str.lower` on the ASCII range; a character outside `a-z`/`0-9` — whatever a
non-ASCII lowering produced — is consumed by the `re.sub` step either way. -/

/-- Is `c` one of the characters the regex class `[a-z0-9]` accepts? -/
def isLowerAlnum (c : Char) : Bool :=
  ('a' ≤ c && c ≤ 'z') || ('0' ≤ c && c ≤ '9')

/-- `str.replace` for a single-character pattern: every occurrence of `c`
becomes the string `rep`. -/
def replaceCharWith (c : Char) (rep : List Char) : List Char → List Char
  | [] => []
  | x :: xs =>
    if x = c then rep ++ replaceCharWith c rep xs
    else x :: replaceCharWith c rep xs

/-- `re.sub(r"[^a-z0-9]+", "_", s)`: each maximal run of characters outside
`[a-z0-9]` becomes a single `'_'`.  The flag records whether the previous
character belonged to such a run. -/
def collapseNonAlnum : Bool → List Char → List Char
  | _, [] => []
  | inRun, x :: xs =>
    if isLowerAlnum x then x :: collapseNonAlnum false xs
    else if inRun then collapseNonAlnum true xs
    else '_' :: collapseNonAlnum true xs

/-- `s.strip(c)`: drop every leading and trailing occurrence of `c`. -/
def stripChar (c : Char) (l : List Char) : List Char :=
  ((l.dropWhile (fun x => x = c)).reverse.dropWhile (fun x => x = c)).reverse

/-- `label_to_filename` (04_batch_download.py). -/
def label_to_filename (label : String) : String :=
  let s := label.toList.map Char.toLower
  let s := replaceCharWith '%' "pct".toList s
  let s := replaceCharWith '&' "and".toList s
  let s := replaceCharWith '/' "_".toList s
  let s := collapseNonAlnum false s
  ⟨stripChar '_' s⟩

/-! ### Edition resolution (02/03/04)

The dataset-detail body and an editions-listing item, flattened to the fields
the scripts read.  `latestVersionHref`/`editionsHref` stand for the full
`links → latest_version/editions → href` chain: `none` covers a missing key at
any level (for the `.get(..., {})` chains of 02/03/04 this yields `None`; for
the bracket-indexing chain `item["links"]["latest_version"]["href"]` of 02/03
it raises, modelled as `Except.error`).  An HTTP response is injected as the
already-parsed body, `none` meaning transport failure (or a falsy body, which
the scripts treat identically). -/

/-- The fields of a dataset-detail response read by the resolvers. -/
structure DatasetDetail where
  latestVersionHref : Option String
  editionsHref : Option String
deriving DecidableEq

/-- The fields of one item of an editions listing read by the resolvers. -/
structure EditionItem where
  edition : Option String
  latestVersionHref : Option String
deriving DecidableEq

/-- Python truthiness of the editions-link string: `if not editions_url`. -/
def truthyStr : Option String → Bool
  | none => false
  | some s => !(s = "")

/-- `get_edition_url` (04_batch_download.py).  `datasetFetch` is the
`get_json` result for the dataset detail, `editionsFetch` the one for the
editions listing (already projected to its `items`; `none` covers both a
failed fetch and a falsy body, and a missing `items` key is the empty
list). -/
def get_edition_url (datasetFetch : Option DatasetDetail)
    (editionsFetch : Option (List EditionItem)) (preferred : String) :
    Option String :=
  match datasetFetch with
  | none => none
  | some data =>
    let fallback := data.latestVersionHref
    if truthyStr data.editionsHref then
      match editionsFetch with
      | none => fallback
      | some editions =>
        match editions.find? (fun item => item.edition = some preferred) with
        | some item => item.latestVersionHref
        | none => fallback
    else fallback

/-- `get_edition_url` (03_download_timeseries.py): the same scan, but the
editions fetch raises on HTTP failure (`raise_for_status`) and a matched
item's link is read with bracket indexing, raising `KeyError` when absent;
both raises are `Except.error`. -/
def get_edition_url_03 (data : DatasetDetail)
    (editionsFetch : Option (List EditionItem)) (preferred : String) :
    Except Unit (Option String) :=
  let fallback := data.latestVersionHref
  if truthyStr data.editionsHref then
    match editionsFetch with
    | none => .error ()
    | some editions =>
      match editions.find? (fun item => item.edition = some preferred) with
      | some item =>
        match item.latestVersionHref with
        | some h => .ok (some h)
        | none => .error ()
      | none => .ok fallback
  else .ok fallback

/-- `get_latest_version_url` (02_explore_dimensions.py): prefer the
`"time-series"` edition, otherwise fall back to the *last* listed edition,
otherwise to the dataset-level `latest_version` link.  Link access on an
edition uses bracket indexing (raises when absent). -/
def get_latest_version_url (data : DatasetDetail)
    (editionsFetch : Option (List EditionItem)) :
    Except Unit (Option String) :=
  if truthyStr data.editionsHref then
    match editionsFetch with
    | none => .error ()
    | some editions =>
      match editions.find? (fun item => item.edition = some "time-series") with
      | some item =>
        match item.latestVersionHref with
        | some h => .ok (some h)
        | none => .error ()
      | none =>
        match editions.getLast? with
        | some item =>
          match item.latestVersionHref with
          | some h => .ok (some h)
          | none => .error ()
        | none => .ok data.latestVersionHref
  else .ok data.latestVersionHref

/-! ### Observations (03 `download_observations` / 04 `get_observations`)

An observation's `dimensions` value is a JSON object mapping dimension names
to sub-objects.  The scripts read it with
`obs.get("dimensions", {}).get("Time") or obs.get("dimensions", {}).get("time")`
followed by `if not time_dim: continue`, so both the *presence* and the
Python *truthiness* of the sub-object matter: `TimeVal.emptyObj` stands for a
falsy `{}`, `TimeVal.obj id label` for any non-empty (truthy) sub-object with
the two fields the scripts read. -/

/-- A value of the `dimensions` map: an empty (falsy) object, or a non-empty
object with its `id` and `label` fields. -/
inductive TimeVal where
  | emptyObj
  | obj (id : Option String) (label : Option String)
deriving DecidableEq

/-- One element of the response's `observations` array, flattened to the read
fields: the `dimensions` map and the raw `observation` value. -/
structure ObsItem where
  dimensions : List (String × TimeVal)
  observation : Option String
deriving DecidableEq

/-- A row of the intermediate DataFrame: `period`, `period_label`, raw
`value`. -/
structure ObsRow where
  period : String
  period_label : String
  value : Option String
deriving DecidableEq

/-- A row after `pd.to_numeric(df["value"], errors="coerce")`. -/
structure NumRow where
  period : String
  period_label : String
  value : Option Int
deriving DecidableEq

/-- Dict lookup `dims.get(k)` (dict keys are unique, so the first match). -/
def lookupDim (dims : List (String × TimeVal)) (k : String) : Option TimeVal :=
  (dims.find? (fun p => p.1 = k)).map Prod.snd

/-- Python truthiness of a looked-up dimension value: `None` and `{}` are
falsy. -/
def truthyTime : Option TimeVal → Bool
  | some (.obj _ _) => true
  | _ => false

/-- `obs.get("dimensions", {}).get("Time") or obs.get("dimensions", {}).get("time")`:
the `"Time"` value when truthy, otherwise whatever `"time"` holds. -/
def timeDimOf (dims : List (String × TimeVal)) : Option TimeVal :=
  let tUpper := lookupDim dims "Time"
  if truthyTime tUpper then tUpper else lookupDim dims "time"

/-- Build the row for one observation, or drop it (`if not time_dim:
continue`). -/
def rowOf (o : ObsItem) : Option ObsRow :=
  match timeDimOf o.dimensions with
  | some (.obj i l) => some ⟨i.getD "", l.getD "", o.observation⟩
  | _ => none

/-- The `rows` list built by the loop over `data.get("observations", [])`. -/
def rowsOf (obs : List ObsItem) : List ObsRow :=
  obs.filterMap rowOf

/-- The value of a digit string (caller checks `all isDigit`). -/
def digitsToNat (l : List Char) : Nat :=
  l.foldl (fun n c => n * 10 + (c.toNat - '0'.toNat)) 0

/-- `pd.to_numeric(v, errors="coerce")`, restricted to the non-negative
integer literals used in this development; a missing value or anything
unparseable becomes `none` (NaN). -/
def to_numeric (v : Option String) : Option Int :=
  v.bind fun s =>
    if !s.toList.isEmpty && s.toList.all Char.isDigit then
      some (Int.ofNat (digitsToNat s.toList))
    else none

/-- Apply the numeric coercion of the `value` column to a row. -/
def coerceRow (r : ObsRow) : NumRow :=
  ⟨r.period, r.period_label, to_numeric r.value⟩

/-! #### Period-label parsing

Dates are encoded as `year * 10000 + month * 100 + day`, which orders them
chronologically.  `parseMonYY` models `pd.to_datetime(s, format="%b-%y")`
(strptime: case-insensitive English month abbreviation, dash, exactly two
digits; two-digit years `00`–`68` mean `20yy`, `69`–`99` mean `19yy`).
`parseMixed` models `pd.to_datetime(s, format="mixed", dayfirst=False)`
restricted to ISO-style labels `YYYY`, `YYYY-MM`, `YYYY-MM-DD`; labels of any
other shape are treated as unparseable (`none`, i.e. `NaT`). -/

/-- `str.split('-')` over characters. -/
def splitOnDash : List Char → List (List Char)
  | [] => [[]]
  | x :: xs =>
    let r := splitOnDash xs
    if x = '-' then [] :: r
    else
      match r with
      | [] => [[x]]
      | g :: gs => (x :: g) :: gs

/-- Month number of a lower-cased English month abbreviation. -/
def monthIdx (l : List Char) : Option Nat :=
  if l = "jan".toList then some 1
  else if l = "feb".toList then some 2
  else if l = "mar".toList then some 3
  else if l = "apr".toList then some 4
  else if l = "may".toList then some 5
  else if l = "jun".toList then some 6
  else if l = "jul".toList then some 7
  else if l = "aug".toList then some 8
  else if l = "sep".toList then some 9
  else if l = "oct".toList then some 10
  else if l = "nov".toList then some 11
  else if l = "dec".toList then some 12
  else none

/-- `year * 10000 + month * 100 + day`. -/
def dateCode (y m d : Nat) : Nat := y * 10000 + m * 100 + d

/-- `pd.to_datetime(s, format="%b-%y")`, `none` when strptime raises. -/
def parseMonYY (s : String) : Option Nat :=
  match splitOnDash s.toList with
  | [mon, yy] =>
    match monthIdx (mon.map Char.toLower) with
    | some m =>
      if yy.length = 2 && yy.all Char.isDigit then
        let y2 := digitsToNat yy
        let year := if y2 ≤ 68 then 2000 + y2 else 1900 + y2
        some (dateCode year m 1)
      else none
    | none => none
  | _ => none

/-- `pd.to_datetime(s, format="mixed", dayfirst=False)` on ISO-style labels;
`none` (`NaT`) otherwise. -/
def parseMixed (s : String) : Option Nat :=
  match splitOnDash s.toList with
  | [y] =>
    if y.length = 4 && y.all Char.isDigit then some (dateCode (digitsToNat y) 1 1)
    else none
  | [y, m] =>
    if y.length = 4 && y.all Char.isDigit && m.length = 2 && m.all Char.isDigit
        && decide (1 ≤ digitsToNat m) && decide (digitsToNat m ≤ 12) then
      some (dateCode (digitsToNat y) (digitsToNat m) 1)
    else none
  | [y, m, d] =>
    if y.length = 4 && y.all Char.isDigit && m.length = 2 && m.all Char.isDigit
        && d.length = 2 && d.all Char.isDigit
        && decide (1 ≤ digitsToNat m) && decide (digitsToNat m ≤ 12)
        && decide (1 ≤ digitsToNat d) && decide (digitsToNat d ≤ 31) then
      some (dateCode (digitsToNat y) (digitsToNat m) (digitsToNat d))
    else none
  | _ => none

/-- `parse_period` (04_batch_download.py): try `%b-%y`, then the mixed
parse, else `NaT`. -/
def parse_period (s : String) : Option Nat :=
  match parseMonYY s with
  | some d => some d
  | none => parseMixed s

/-- Sort key of a parsed period: `NaT` rows sort last (`sort_values`
default `na_position="last"`); every real date code is below the
sentinel. -/
def natKey : Option Nat → Nat
  | some d => d
  | none => 100000000

/-- `df.assign(_sort=parsed).sort_values("_sort")`: stable sort of the rows
by parsed period label, `NaT` last. -/
def sortByParsed (p : String → Option Nat) (rows : List NumRow) : List NumRow :=
  List.insertionSort
    (fun a b => natKey (p a.period_label) ≤ natKey (p b.period_label)) rows

/-- Lexicographic comparison of character lists by code point — the order
Python/pandas use when sorting a string column. -/
def lexLe : List Char → List Char → Bool
  | [], _ => true
  | _ :: _, [] => false
  | x :: xs, y :: ys =>
    if x < y then true
    else if y < x then false
    else lexLe xs ys

/-- Lexicographic string comparison. -/
def strLe (a b : String) : Bool := lexLe a.toList b.toList

/-- `df.sort_values("period")`: stable sort by the raw period id
(lexicographic on the string). -/
def sortByPeriod (rows : List NumRow) : List NumRow :=
  List.insertionSort (fun a b : NumRow => strLe a.period b.period = true) rows

/-- `get_observations` (04_batch_download.py).  `fetch` is the `get_json`
result for the observations endpoint, already projected to its
`observations` array (`none` = HTTP failure after retries, or a falsy
body). -/
def get_observations (fetch : Option (List ObsItem)) : List NumRow :=
  match fetch with
  | none => []
  | some obsList =>
    let rows := rowsOf obsList
    if rows.isEmpty then []
    else
      let nrows := rows.map coerceRow
      let parsed := nrows.map (fun r => parse_period r.period_label)
      if parsed.any (fun x => x.isSome) then sortByParsed parse_period nrows
      else sortByPeriod nrows

/-- `download_observations` (03_download_timeseries.py): the whole-column
`%b-%y` parse succeeds only when *every* label parses (otherwise
`pd.to_datetime` raises and the `except` branch runs); the fallback is the
per-item mixed parse with `errors="coerce"`, used when at least one label
parses, else the raw-period sort. -/
def download_observations (obsList : List ObsItem) : List NumRow :=
  let rows := rowsOf obsList
  if rows.isEmpty then []
  else
    let nrows := rows.map coerceRow
    if nrows.all (fun r => (parseMonYY r.period_label).isSome) then
      sortByParsed parseMonYY nrows
    else
      let parsed := nrows.map (fun r => parseMixed r.period_label)
      if parsed.any (fun x => x.isSome) then sortByParsed parseMixed nrows
      else sortByPeriod nrows

/-! ### 02_explore_dimensions.py : `explore_dimensions`

The dimensions listing and each dimension's options response, flattened to
the fields the script reads.  The per-dimension options request is injected
as `optFetch : String → OptionsResp` from the dimension id used in the URL.
The script *prints* each dimension's label and the declared `total_count`
but returns only `all_dimensions`, a dict from dimension name to its
options dict. -/

/-- The fields of one item of the `/dimensions` listing read by the script;
`optionsLinkId` is the `links → options → id` chain (`.get` with default
`name`). -/
structure DimItem where
  name : Option String
  label : Option String
  optionsLinkId : Option String
deriving DecidableEq

/-- One item of an options response. -/
structure OptItem where
  option : Option String
  label : Option String
deriving DecidableEq

/-- An options response: its `items` and declared `total_count`. -/
structure OptionsResp where
  items : List OptItem
  total_count : Option Nat
deriving DecidableEq

/-- Python-dict insertion: overwrite the value of an existing key in place,
else append (dicts preserve insertion order). -/
def dictInsert {K V : Type} [DecidableEq K] (d : List (K × V)) (k : K) (v : V) :
    List (K × V) :=
  if d.any (fun p => p.1 = k) then
    d.map (fun p => if p.1 = k then (k, v) else p)
  else d ++ [(k, v)]

/-- The `options` dict built for one dimension:
`options[item.get("option")] = item.get("label", "")`. -/
def buildOptions (items : List OptItem) : List (Option String × String) :=
  items.foldl (fun acc it => dictInsert acc it.option (it.label.getD "")) []

/-- The loop body of `explore_dimensions` accumulated over the dimension
items (the printed label and `total_count` do not reach the
accumulator). -/
def exploreDimensionsGo (optFetch : String → OptionsResp) :
    List DimItem → List (String × List (Option String × String)) →
    List (String × List (Option String × String))
  | [], acc => acc
  | dim :: rest, acc =>
    let name := dim.name.getD ""
    let dimId := dim.optionsLinkId.getD name
    let options := buildOptions (optFetch dimId).items
    exploreDimensionsGo optFetch rest (dictInsert acc name options)

/-- `explore_dimensions` (02_explore_dimensions.py): the returned
`all_dimensions` mapping. -/
def explore_dimensions (dims : List DimItem) (optFetch : String → OptionsResp) :
    List (String × List (Option String × String)) :=
  exploreDimensionsGo optFetch dims []

/-- Erase a dimension item's console-only metadata (its label). -/
def stripDimMeta (d : DimItem) : DimItem :=
  { d with label := none }

/-- Erase an options response's console-only declared total. -/
def stripTotal (r : OptionsResp) : OptionsResp :=
  { r with total_count := none }

/-! ## Helper lemmas -/

/-- Every character emitted by the `re.sub` step is in `[a-z0-9]` or is the
replacement underscore. -/
theorem mem_collapseNonAlnum {c : Char} (b : Bool) (l : List Char)
    (h : c ∈ collapseNonAlnum b l) : isLowerAlnum c = true ∨ c = '_' := by
  induction l generalizing b with
  | nil => simp [collapseNonAlnum] at h
  | cons x xs ih =>
    by_cases hx : isLowerAlnum x = true
    · rw [collapseNonAlnum, if_pos hx] at h
      rcases List.mem_cons.mp h with rfl | h'
      · exact Or.inl hx
      · exact ih false h'
    · rw [collapseNonAlnum, if_neg hx] at h
      cases b with
      | true => exact ih true (by simpa using h)
      | false =>
        rcases List.mem_cons.mp (by simpa using h) with rfl | h'
        · exact Or.inr rfl
        · exact ih true h'

/-- A character of the stripped list was already in the list. -/
theorem mem_stripChar {c x : Char} {l : List Char} (h : x ∈ stripChar c l) :
    x ∈ l := by
  unfold stripChar at h
  rw [List.mem_reverse] at h
  have h1 := (List.dropWhile_suffix _).sublist.subset h
  rw [List.mem_reverse] at h1
  exact (List.dropWhile_suffix _).sublist.subset h1

/-- The head of `dropWhile p l` does not satisfy `p`. -/
theorem head?_dropWhile_ne (p : Char → Bool) (l : List Char) (y : Char)
    (h : (l.dropWhile p).head? = some y) : p y = false := by
  induction l with
  | nil => simp [List.dropWhile] at h
  | cons x xs ih =>
    by_cases hx : p x = true
    · rw [List.dropWhile_cons, if_pos hx] at h
      exact ih h
    · rw [List.dropWhile_cons, if_neg hx] at h
      simp only [List.head?_cons, Option.some.injEq] at h
      subst h
      simpa using hx

/-- The stripped list never starts with the stripped character. -/
theorem head?_stripChar (c : Char) (l : List Char) (y : Char)
    (h : (stripChar c l).head? = some y) : y ≠ c := by
  have hpre : stripChar c l <+: l.dropWhile (fun x => decide (x = c)) := by
    have hsuf := List.dropWhile_suffix (l := (l.dropWhile (fun x => decide (x = c))).reverse)
      (fun x => decide (x = c))
    have h2 := List.reverse_prefix.mpr hsuf
    rw [List.reverse_reverse] at h2
    exact h2
  obtain ⟨t, ht⟩ := hpre
  cases hs : stripChar c l with
  | nil => rw [hs] at h; simp at h
  | cons z zs =>
    rw [hs] at h ht
    simp only [List.head?_cons, Option.some.injEq] at h
    have hhead : (l.dropWhile (fun x => decide (x = c))).head? = some z := by
      rw [← ht]; rfl
    have hz : z ≠ c := by simpa using head?_dropWhile_ne _ l z hhead
    exact h ▸ hz

/-- The stripped list never ends with the stripped character. -/
theorem getLast?_stripChar (c : Char) (l : List Char) (y : Char)
    (h : (stripChar c l).getLast? = some y) : y ≠ c := by
  unfold stripChar at h
  rw [List.getLast?_reverse] at h
  simpa using head?_dropWhile_ne _ _ y h

/-- With at least one request's worth of fuel, the pagination loop issues at
least one request. -/
theorem getAllDatasetsGo_pos {α : Type} (server : Nat → List α) (fuel offset : Nat) :
    1 ≤ (getAllDatasetsGo server (fuel + 1) offset).2 := by
  rw [getAllDatasetsGo]
  by_cases h : (server offset).isEmpty = true
  · rw [if_pos h]
  · rw [if_neg h]
    exact Nat.le_add_left 1 _

/-- Running the pagination loop against the slicing server from any offset:
it yields exactly the remaining items and issues `⌈remaining / P⌉ + 1`
requests (the `+ 1` being the final empty-page probe). -/
theorem getAllDatasetsGo_sliceServer {α : Type} (items : List α) (P : Nat)
    (hP : 0 < P) :
    ∀ (fuel offset : Nat), items.length - offset < fuel →
      getAllDatasetsGo (sliceServer items P) fuel offset =
        (items.drop offset, ceilDiv (items.length - offset) P + 1) := by
  intro fuel
  induction fuel with
  | zero => intro offset h; omega
  | succ f ih =>
    intro offset h
    simp only [getAllDatasetsGo, sliceServer]
    by_cases hoff : items.length ≤ offset
    · have hdrop : items.drop offset = [] := List.drop_eq_nil_of_le hoff
      have hR : items.length - offset = 0 := by omega
      rw [hdrop, hR]
      have hc : ceilDiv 0 P = 0 := Nat.div_eq_of_lt (by omega)
      simp [hc]
    · push_neg at hoff
      have hR : 0 < items.length - offset := by omega
      have hXlen : (items.drop offset).length = items.length - offset :=
        List.length_drop offset items
      have hpagelen : ((items.drop offset).take P).length
          = min P (items.length - offset) := by
        rw [List.length_take, hXlen]
      have hne : ((items.drop offset).take P).isEmpty = false := by
        cases hXP : (items.drop offset).take P with
        | nil =>
          have hlen := congrArg List.length hXP
          rw [hpagelen] at hlen
          simp at hlen
          omega
        | cons a t => rfl
      rw [hne, if_neg Bool.false_ne_true]
      have hfuel' : items.length - (offset + ((items.drop offset).take P).length) < f := by
        rw [hpagelen]; omega
      rw [ih _ hfuel', Prod.mk.injEq]
      refine ⟨?_, ?_⟩
      · show (items.drop offset).take P ++
            items.drop (offset + ((items.drop offset).take P).length) = items.drop offset
        have hdrop2 : items.drop (offset + ((items.drop offset).take P).length)
            = (items.drop offset).drop ((items.drop offset).take P).length := by
          rw [List.drop_drop]
        rw [hdrop2]
        rcases le_total P (items.drop offset).length with hle | hle
        · rw [List.length_take, min_eq_left hle]
          exact List.take_append_drop P (items.drop offset)
        · rw [List.take_of_length_le hle, List.drop_length, List.append_nil]
      · show ceilDiv (items.length - (offset + ((items.drop offset).take P).length)) P + 1 + 1
            = ceilDiv (items.length - offset) P + 1
        rw [hpagelen]
        rcases le_total (items.length - offset) P with hle | hle
        · have h1 : items.length - (offset + min P (items.length - offset)) = 0 := by omega
          have h2 : ceilDiv 0 P = 0 := Nat.div_eq_of_lt (by omega)
          have h3 : ceilDiv (items.length - offset) P = 1 := by
            unfold ceilDiv
            have he : items.length - offset + P - 1
                = (items.length - offset - 1) + P := by omega
            rw [he, Nat.add_div_right _ hP, Nat.div_eq_of_lt (by omega)]
          rw [h1, h2, h3]
        · have h1 : items.length - (offset + min P (items.length - offset))
              = items.length - offset - P := by omega
          have h2 : ceilDiv (items.length - offset - P) P + 1
              = ceilDiv (items.length - offset) P := by
            unfold ceilDiv
            have he : items.length - offset - P + P - 1
                = items.length - offset - 1 := by omega
            have he2 : items.length - offset + P - 1
                = (items.length - offset - 1) + P := by omega
            rw [he, he2, Nat.add_div_right _ hP]
          rw [h1]
          omega

/-- Unfolding equation of the retry loop for one available attempt. -/
theorem getJsonGo_succ {J : Type} (client : Nat → Option J) (n attempt : Nat) :
    getJsonGo client (n + 1) attempt =
      match client attempt with
      | some j => (some j, 0)
      | none =>
        if n = 0 then (none, 0)
        else ((getJsonGo client n (attempt + 1)).1,
              2 ^ attempt + (getJsonGo client n (attempt + 1)).2) := rfl

/-- The catalog accumulator never reads a dimension's label or a response's
declared total. -/
theorem exploreDimensionsGo_strip (optFetch : String → OptionsResp) :
    ∀ (dims : List DimItem) (acc : List (String × List (Option String × String))),
      exploreDimensionsGo (fun u => stripTotal (optFetch u)) (dims.map stripDimMeta) acc
        = exploreDimensionsGo optFetch dims acc := by
  intro dims
  induction dims with
  | nil => intro acc; rfl
  | cons d rest ih =>
    intro acc
    simp only [List.map_cons, exploreDimensionsGo, stripDimMeta, stripTotal]
    exact ih _

/-- Unfolding of `get_observations` on a successful fetch. -/
theorem get_observations_eq (l : List ObsItem) :
    get_observations (some l) =
      if (rowsOf l).isEmpty then []
      else if (((rowsOf l).map coerceRow).map
          (fun r => parse_period r.period_label)).any (fun x => x.isSome) then
        sortByParsed parse_period ((rowsOf l).map coerceRow)
      else sortByPeriod ((rowsOf l).map coerceRow) := rfl

/-- Unfolding of `download_observations`. -/
theorem download_observations_eq (l : List ObsItem) :
    download_observations l =
      if (rowsOf l).isEmpty then []
      else if ((rowsOf l).map coerceRow).all
          (fun r => (parseMonYY r.period_label).isSome) then
        sortByParsed parseMonYY ((rowsOf l).map coerceRow)
      else if (((rowsOf l).map coerceRow).map
          (fun r => parseMixed r.period_label)).any (fun x => x.isSome) then
        sortByParsed parseMixed ((rowsOf l).map coerceRow)
      else sortByPeriod ((rowsOf l).map coerceRow) := rfl

/-- The parsed-key sort is sorted by its key. -/
theorem sortByParsed_sorted (p : String → Option Nat) (rows : List NumRow) :
    List.Sorted
      (fun a b => natKey (p a.period_label) ≤ natKey (p b.period_label))
      (sortByParsed p rows) := by
  haveI : IsTotal NumRow
      (fun a b => natKey (p a.period_label) ≤ natKey (p b.period_label)) :=
    ⟨fun a b => Nat.le_total _ _⟩
  haveI : IsTrans NumRow
      (fun a b => natKey (p a.period_label) ≤ natKey (p b.period_label)) :=
    ⟨fun _ _ _ hab hbc => Nat.le_trans hab hbc⟩
  exact List.sorted_insertionSort _ rows

/-- The parsed-key sort permutes its input. -/
theorem sortByParsed_perm (p : String → Option Nat) (rows : List NumRow) :
    List.Perm (sortByParsed p rows) rows :=
  List.perm_insertionSort _ rows

/-- `lexLe` is total. -/
theorem lexLe_total : ∀ a b : List Char, lexLe a b = true ∨ lexLe b a = true
  | [], _ => Or.inl rfl
  | _ :: _, [] => Or.inr rfl
  | x :: xs, y :: ys => by
    simp only [lexLe]
    rcases lt_trichotomy x y with h | h | h
    · exact Or.inl (by rw [if_pos h])
    · subst h
      simp only [lt_self_iff_false, if_false]
      exact lexLe_total xs ys
    · exact Or.inr (by rw [if_pos h])

/-- `lexLe` is transitive. -/
theorem lexLe_trans : ∀ a b c : List Char,
    lexLe a b = true → lexLe b c = true → lexLe a c = true
  | [], _, _, _, _ => rfl
  | _ :: _, [], _, hab, _ => by simp [lexLe] at hab
  | _ :: _, _ :: _, [], _, hbc => by simp [lexLe] at hbc
  | x :: xs, y :: ys, z :: zs, hab, hbc => by
    simp only [lexLe] at hab hbc ⊢
    rcases lt_trichotomy x y with hxy | hxy | hxy
    · rcases lt_trichotomy y z with hyz | hyz | hyz
      · rw [if_pos (lt_trans hxy hyz)]
      · subst hyz
        rw [if_pos hxy]
      · rw [if_neg (lt_asymm hyz), if_pos hyz] at hbc
        cases hbc
    · subst hxy
      rcases lt_trichotomy x z with hxz | hxz | hxz
      · rw [if_pos hxz]
      · subst hxz
        simp only [lt_self_iff_false, if_false] at hab hbc ⊢
        exact lexLe_trans xs ys zs hab hbc
      · rw [if_neg (lt_asymm hxz), if_pos hxz] at hbc
        cases hbc
    · rw [if_neg (lt_asymm hxy), if_pos hxy] at hab
      cases hab

/-- The raw-period sort is sorted by the period id. -/
theorem sortByPeriod_sorted (rows : List NumRow) :
    List.Sorted (fun a b : NumRow => strLe a.period b.period = true)
      (sortByPeriod rows) := by
  haveI : IsTotal NumRow (fun a b : NumRow => strLe a.period b.period = true) :=
    ⟨fun a b => lexLe_total _ _⟩
  haveI : IsTrans NumRow (fun a b : NumRow => strLe a.period b.period = true) :=
    ⟨fun _ _ _ hab hbc => lexLe_trans _ _ _ hab hbc⟩
  exact List.sorted_insertionSort _ rows

/-- The raw-period sort permutes its input. -/
theorem sortByPeriod_perm (rows : List NumRow) :
    List.Perm (sortByPeriod rows) rows :=
  List.perm_insertionSort _ rows

/-! ## Claim theorems -/

/-- **C6**: for every simulated paginated listing of `N` items served in pages
of size at most `P` (the slicing server), `get_all_datasets` yields exactly the
`N` items in page order and issues exactly `⌈N / P⌉ + 1` requests, the last
being the empty-page probe; moreover iteration terminates exactly on an empty
page — against any server, a non-empty page (in particular one shorter than
`P`) triggers at least one further request.  Offsets advance by the length of
each received page by construction of `getAllDatasetsGo`. -/
theorem c6_pagination {α : Type} (items : List α) (P fuel : Nat) (hP : 0 < P)
    (hfuel : items.length < fuel) :
    (get_all_datasets (sliceServer items P) fuel).1 = items ∧
    (get_all_datasets (sliceServer items P) fuel).2 = ceilDiv items.length P + 1 ∧
    (∀ (server : Nat → List α) (f offset : Nat), server offset ≠ [] →
      2 ≤ (getAllDatasetsGo server (f + 1 + 1) offset).2) := by
  have h := getAllDatasetsGo_sliceServer items P hP fuel 0 (by omega)
  refine ⟨?_, ?_, ?_⟩
  · rw [get_all_datasets, h]
    simp
  · rw [get_all_datasets, h]
    simp
  · intro server f offset hne
    have h1 : 1 ≤ (getAllDatasetsGo server (f + 1) (offset + (server offset).length)).2 :=
      getAllDatasetsGo_pos server f _
    have hemp : (server offset).isEmpty = false := by
      cases hs : server offset with
      | nil => exact absurd hs hne
      | cons a t => rfl
    rw [getAllDatasetsGo, hemp, if_neg Bool.false_ne_true]
    show 2 ≤ (getAllDatasetsGo server (f + 1) (offset + (server offset).length)).2 + 1
    omega

/-- Witness for C6: five items over page size 2 give the five items back in
four requests (`⌈5/2⌉ + 1`). -/
theorem c6_pagination_witness :
    (get_all_datasets (sliceServer [1, 2, 3, 4, 5] 2) 6).1 = [1, 2, 3, 4, 5] ∧
    (get_all_datasets (sliceServer [1, 2, 3, 4, 5] 2) 6).2 = ceilDiv 5 2 + 1 ∧
    2 ≤ (getAllDatasetsGo (sliceServer [1, 2, 3, 4, 5] 2) (0 + 1 + 1) 4).2 := by
  have h := c6_pagination [1, 2, 3, 4, 5] 2 6 (by decide) (by decide)
  exact ⟨h.1, h.2.1, h.2.2 (sliceServer [1, 2, 3, 4, 5] 2) 0 4 (by decide)⟩

/-- **C7**: `get_json` makes at most 3 attempts (its result only depends on
the outcomes of attempts 0, 1, 2); a client failing on attempts 0 and 1 and
succeeding on attempt 2 yields the parsed JSON; a client failing all three
attempts yields the distinguished failure value `none`.  It raises no
exception to the caller: the model is a total function into `Option`. -/
theorem c7_get_json_retry {J : Type} :
    (∀ (c : Nat → Option J) (v : J),
        c 0 = none → c 1 = none → c 2 = some v → (get_json c).1 = some v) ∧
    (∀ c : Nat → Option J,
        c 0 = none → c 1 = none → c 2 = none → (get_json c).1 = none) ∧
    (∀ c c' : Nat → Option J, (∀ i, i < 3 → c i = c' i) → get_json c = get_json c') := by
  have step2 : ∀ (c : Nat → Option J), c 0 = none →
      getJsonGo c 3 0 = ((getJsonGo c 2 1).1, 2 ^ 0 + (getJsonGo c 2 1).2) := by
    intro c h0
    have e := getJsonGo_succ c 2 0
    rw [h0] at e
    exact e
  have step1 : ∀ (c : Nat → Option J), c 1 = none →
      getJsonGo c 2 1 = ((getJsonGo c 1 2).1, 2 ^ 1 + (getJsonGo c 1 2).2) := by
    intro c h1
    have e := getJsonGo_succ c 1 1
    rw [h1] at e
    exact e
  have step0some : ∀ (c : Nat → Option J) (v : J), c 2 = some v →
      getJsonGo c 1 2 = (some v, 0) := by
    intro c v h2
    have e := getJsonGo_succ c 0 2
    rw [h2] at e
    exact e
  have step0none : ∀ (c : Nat → Option J), c 2 = none →
      getJsonGo c 1 2 = (none, 0) := by
    intro c h2
    have e := getJsonGo_succ c 0 2
    rw [h2] at e
    exact e
  have firstsome : ∀ (c : Nat → Option J) (v : J), c 0 = some v →
      getJsonGo c 3 0 = (some v, 0) := by
    intro c v h0
    have e := getJsonGo_succ c 2 0
    rw [h0] at e
    exact e
  have sndsome : ∀ (c : Nat → Option J) (v : J), c 0 = none → c 1 = some v →
      getJsonGo c 2 1 = (some v, 0) := by
    intro c v _ h1
    have e := getJsonGo_succ c 1 1
    rw [h1] at e
    exact e
  refine ⟨?_, ?_, ?_⟩
  · intro c v h0 h1 h2
    show (getJsonGo c 3 0).1 = some v
    rw [step2 c h0, step1 c h1, step0some c v h2]
  · intro c h0 h1 h2
    show (getJsonGo c 3 0).1 = none
    rw [step2 c h0, step1 c h1, step0none c h2]
  · intro c c' hagree
    have h0 := hagree 0 (by omega)
    have h1 := hagree 1 (by omega)
    have h2 := hagree 2 (by omega)
    show getJsonGo c 3 0 = getJsonGo c' 3 0
    cases hc0 : c 0 with
    | some v =>
      rw [firstsome c v hc0, firstsome c' v (by rw [← h0, hc0])]
    | none =>
      rw [step2 c hc0, step2 c' (by rw [← h0, hc0])]
      cases hc1 : c 1 with
      | some v =>
        rw [sndsome c v hc0 hc1, sndsome c' v (by rw [← h0, hc0]) (by rw [← h1, hc1])]
      | none =>
        rw [step1 c hc1, step1 c' (by rw [← h1, hc1])]
        cases hc2 : c 2 with
        | some v =>
          rw [step0some c v hc2, step0some c' v (by rw [← h2, hc2])]
        | none =>
          rw [step0none c hc2, step0none c' (by rw [← h2, hc2])]

/-- Witness for C7: a client failing attempts 0 and 1 and succeeding on
attempt 2 returns the parsed value. -/
theorem c7_get_json_retry_witness :
    (get_json (fun i => if i = 2 then some 42 else (none : Option Nat))).1 = some 42 :=
  c7_get_json_retry.1 (fun i => if i = 2 then some 42 else none) 42 rfl rfl rfl

/-- Counterexample to **C8** as stated: for a call whose every attempt fails,
the accumulated backoff is 3 seconds, not 7 — `get_json` sleeps only
*between* attempts (after failed attempts 0 and 1, i.e. `1 + 2` seconds) and
returns immediately after the final failure. -/
theorem c8_counterexample :
    (get_json (fun _ => (none : Option Nat))).2 = 3 ∧
    ¬ (get_json (fun _ => (none : Option Nat))).2 = 7 := by
  decide

/-- **C8 (amended)**: for a call whose every attempt fails, the total backoff
delay accumulated by `get_json` before surfacing the failure value is
`2 ^ 0 + 2 ^ 1 = 3` seconds (no sleep follows the last attempt). -/
theorem c8_total_backoff {J : Type} (c : Nat → Option J)
    (h0 : c 0 = none) (h1 : c 1 = none) (h2 : c 2 = none) :
    (get_json c).2 = 3 := by
  have e2 := getJsonGo_succ c 2 0
  rw [h0] at e2
  have e1 := getJsonGo_succ c 1 1
  rw [h1] at e1
  have e0 := getJsonGo_succ c 0 2
  rw [h2] at e0
  show (getJsonGo c 3 0).2 = 3
  rw [e2, e1, e0]
  rfl

/-- Witness for the amended C8. -/
theorem c8_total_backoff_witness :
    (get_json (fun _ => (none : Option Nat))).2 = 3 :=
  c8_total_backoff (fun _ => none) rfl rfl rfl

/-- **C10**: for every input string, `label_to_filename` produces only
lowercase letters, digits, and underscores, and the result neither starts nor
ends with an underscore. -/
theorem c10_label_to_filename_shape (label : String) :
    (∀ ch ∈ (label_to_filename label).toList, isLowerAlnum ch = true ∨ ch = '_') ∧
    (label_to_filename label).toList.head? ≠ some '_' ∧
    (label_to_filename label).toList.getLast? ≠ some '_' := by
  refine ⟨?_, ?_, ?_⟩
  · intro ch hch
    exact mem_collapseNonAlnum false _ (mem_stripChar hch)
  · intro h
    exact absurd rfl (head?_stripChar '_' _ '_' h)
  · intro h
    exact absurd rfl (getLast?_stripChar '_' _ '_' h)

/-- Witness for C10 on the docstring's own example label. -/
theorem c10_label_to_filename_shape_witness :
    (isLowerAlnum 'g' = true ∨ 'g' = '_') ∧
    (label_to_filename "GDP growth (QoQ)").toList.head? ≠ some '_' := by
  refine ⟨(c10_label_to_filename_shape "GDP growth (QoQ)").1 'g' ?_,
    (c10_label_to_filename_shape "GDP growth (QoQ)").2.1⟩
  decide

/-- Counterexample to **C1** as stated: a dataset with a non-empty editions
listing containing no edition named `"time-series"` — `get_edition_url`
(03/04) returns the dataset-level `latest_version` link, not the last listed
edition's link. -/
theorem c1_counterexample :
    get_edition_url (some ⟨some "dataset-latest", some "editions-url"⟩)
        (some [⟨some "2019", some "link-2019"⟩, ⟨some "2020", some "link-2020"⟩])
        "time-series" = some "dataset-latest" ∧
    ([(⟨some "2019", some "link-2019"⟩ : EditionItem),
      ⟨some "2020", some "link-2020"⟩].all
        (fun e => decide (e.edition ≠ some "time-series"))) = true ∧
    ¬ get_edition_url (some ⟨some "dataset-latest", some "editions-url"⟩)
        (some [⟨some "2019", some "link-2019"⟩, ⟨some "2020", some "link-2020"⟩])
        "time-series" = some "link-2020" ∧
    get_edition_url_03 ⟨some "dataset-latest", some "editions-url"⟩
        (some [⟨some "2019", some "link-2019"⟩, ⟨some "2020", some "link-2020"⟩])
        "time-series" = .ok (some "dataset-latest") := by
  refine ⟨rfl, by decide, by decide, rfl⟩

/-- **C1 (amended)**: only `get_latest_version_url` (02) falls back to the
*last* listed edition's `latest_version` link when the non-empty listing has
no `"time-series"` edition; `get_edition_url` (03 and 04) instead returns the
dataset-level `latest_version` link whenever no edition name exactly equals
the preferred name. -/
theorem c1_edition_fallback :
    (∀ (data : DatasetDetail) (eds : List EditionItem) (e : EditionItem)
        (u h : String), data.editionsHref = some u → u ≠ "" →
        (∀ x ∈ eds, ¬ x.edition = some "time-series") →
        eds.getLast? = some e → e.latestVersionHref = some h →
        get_latest_version_url data (some eds) = .ok (some h)) ∧
    (∀ (data : DatasetDetail) (eds : List EditionItem) (pref u : String),
        data.editionsHref = some u → u ≠ "" →
        (∀ x ∈ eds, ¬ x.edition = some pref) →
        get_edition_url (some data) (some eds) pref = data.latestVersionHref) ∧
    (∀ (data : DatasetDetail) (eds : List EditionItem) (pref u : String),
        data.editionsHref = some u → u ≠ "" →
        (∀ x ∈ eds, ¬ x.edition = some pref) →
        get_edition_url_03 data (some eds) pref = .ok data.latestVersionHref) := by
  refine ⟨?_, ?_, ?_⟩
  · intro data eds e u h hu hune hnm hlast hhref
    have hf : eds.find? (fun item => item.edition = some "time-series") = none := by
      rw [List.find?_eq_none]
      intro x hx
      simpa using hnm x hx
    simp [get_latest_version_url, hu, truthyStr, hune, hf, hlast, hhref]
  · intro data eds pref u hu hune hnm
    have hf : eds.find? (fun item => item.edition = some pref) = none := by
      rw [List.find?_eq_none]
      intro x hx
      simpa using hnm x hx
    simp [get_edition_url, hu, truthyStr, hune, hf]
  · intro data eds pref u hu hune hnm
    have hf : eds.find? (fun item => item.edition = some pref) = none := by
      rw [List.find?_eq_none]
      intro x hx
      simpa using hnm x hx
    simp [get_edition_url_03, hu, truthyStr, hune, hf]

/-- Witness for the amended C1: 02's resolver returns the last edition's link,
04's returns the dataset-level fallback, on the same no-match listing. -/
theorem c1_edition_fallback_witness :
    get_latest_version_url ⟨some "dataset-latest", some "editions-url"⟩
        (some [⟨some "2019", some "link-2019"⟩, ⟨some "2020", some "link-2020"⟩])
      = .ok (some "link-2020") ∧
    get_edition_url (some ⟨some "dataset-latest", some "editions-url"⟩)
        (some [⟨some "2019", some "link-2019"⟩, ⟨some "2020", some "link-2020"⟩])
        "PWT24" = some "dataset-latest" :=
  ⟨c1_edition_fallback.1 ⟨some "dataset-latest", some "editions-url"⟩
      [⟨some "2019", some "link-2019"⟩, ⟨some "2020", some "link-2020"⟩]
      ⟨some "2020", some "link-2020"⟩ "editions-url" "link-2020"
      rfl (by decide) (by decide) (by decide) rfl,
   c1_edition_fallback.2.1 ⟨some "dataset-latest", some "editions-url"⟩
      [⟨some "2019", some "link-2019"⟩, ⟨some "2020", some "link-2020"⟩]
      "PWT24" "editions-url" rfl (by decide) (by decide)⟩

/-- **C9**: in `get_edition_url` (04), a transport failure on the
dataset-detail fetch yields `none` (resolution failure), but a transport
failure on the editions-listing fetch does not fail the resolution: the
function degrades to the dataset-level `latest_version` fallback — even
though, had the listing been retrieved and contained the preferred edition,
that edition's link would have been returned instead. -/
theorem c9_editions_failure_degrades :
    (∀ (editionsFetch : Option (List EditionItem)) (pref : String),
        get_edition_url none editionsFetch pref = none) ∧
    (∀ (data : DatasetDetail) (pref u : String),
        data.editionsHref = some u → u ≠ "" →
        get_edition_url (some data) none pref = data.latestVersionHref) ∧
    (∀ (data : DatasetDetail) (e : EditionItem) (rest : List EditionItem)
        (pref u : String), data.editionsHref = some u → u ≠ "" →
        e.edition = some pref →
        get_edition_url (some data) (some (e :: rest)) pref = e.latestVersionHref) := by
  refine ⟨?_, ?_, ?_⟩
  · intro ef pref
    rfl
  · intro data pref u hu hune
    simp [get_edition_url, hu, truthyStr, hune]
  · intro data e rest pref u hu hune he
    have hf : (e :: rest).find? (fun item => item.edition = some pref) = some e :=
      List.find?_cons_of_pos _ (by simp [he])
    simp [get_edition_url, hu, truthyStr, hune, hf]

/-- Witness for C9: failed dataset fetch, failed editions fetch, and the
counterfactual retrieved listing with a matching edition. -/
theorem c9_editions_failure_degrades_witness :
    get_edition_url none (some []) "time-series" = none ∧
    get_edition_url (some ⟨some "dataset-latest", some "editions-url"⟩) none
        "time-series" = some "dataset-latest" ∧
    get_edition_url (some ⟨some "dataset-latest", some "editions-url"⟩)
        (some [⟨some "time-series", some "edition-link"⟩]) "time-series"
      = some "edition-link" :=
  ⟨c9_editions_failure_degrades.1 (some []) "time-series",
   c9_editions_failure_degrades.2.1 ⟨some "dataset-latest", some "editions-url"⟩
      "time-series" "editions-url" rfl (by decide),
   c9_editions_failure_degrades.2.2 ⟨some "dataset-latest", some "editions-url"⟩
      ⟨some "time-series", some "edition-link"⟩ [] "time-series" "editions-url"
      rfl (by decide) rfl⟩

/-- Counterexample to **C3** as stated: `get_observations` returns the very
same empty DataFrame after an HTTP failure (`fetch = none`) as for a
successful response with zero matching observations — the two outcomes are
not distinct values. -/
theorem c3_counterexample :
    get_observations none = get_observations (some []) ∧
    get_observations none = ([] : List NumRow) :=
  ⟨rfl, rfl⟩

/-- **C3 (amended)**: `get_observations` collapses HTTP failure and valid
empty data: it returns the empty DataFrame when the HTTP call fails after all
retries, and the same empty DataFrame when the API responds successfully with
zero matching observations (more generally whenever no observation
survives); callers cannot tell the two apart from the return value. -/
theorem c3_empty_collapse :
    get_observations none = ([] : List NumRow) ∧
    get_observations (some []) = ([] : List NumRow) ∧
    (∀ l : List ObsItem, rowsOf l = [] → get_observations (some l) = []) := by
  refine ⟨rfl, rfl, ?_⟩
  intro l hl
  rw [get_observations_eq, hl]
  rfl

/-- Witness for the amended C3. -/
theorem c3_empty_collapse_witness :
    get_observations (some ([] : List ObsItem)) = ([] : List NumRow) :=
  c3_empty_collapse.2.2 [] rfl

/-- Counterexample to **C4** as stated: an observation whose temporal
sub-object sits under `"TIME"` — a capitalization of "time" different from
the two keys the code tries — is *not* found, and is dropped from the
output. -/
theorem c4_counterexample :
    rowOf ⟨[("TIME", .obj (some "2024") (some "Jan-24"))], some "1"⟩ = none ∧
    rowsOf [⟨[("TIME", .obj (some "2024") (some "Jan-24"))], some "1"⟩] = [] :=
  ⟨rfl, rfl⟩

/-- **C4 (amended)**: the temporal sub-object is located by trying exactly
the two keys `"Time"` then `"time"` (not a case-insensitive lookup): an
observation is kept iff one of those two exact keys holds a truthy
(non-empty) sub-object; every other observation — including one whose only
temporal key is another capitalization such as `"TIME"` — is dropped from
the output series. -/
theorem c4_time_key_lookup :
    (∀ o : ObsItem, (rowOf o).isSome = true ↔
        (truthyTime (lookupDim o.dimensions "Time") = true ∨
         truthyTime (lookupDim o.dimensions "time") = true)) ∧
    (∀ o : ObsItem, (∀ p ∈ o.dimensions, p.1 ≠ "Time" ∧ p.1 ≠ "time") →
        rowOf o = none) ∧
    (∀ (o : ObsItem) (l : List ObsItem), rowOf o = none →
        rowsOf (o :: l) = rowsOf l) := by
  refine ⟨?_, ?_, ?_⟩
  · intro o
    rcases hT : lookupDim o.dimensions "Time" with _ | tv
    · rcases ht : lookupDim o.dimensions "time" with _ | tw
      · simp [rowOf, timeDimOf, hT, ht, truthyTime]
      · cases tw <;> simp [rowOf, timeDimOf, hT, ht, truthyTime]
    · cases tv with
      | emptyObj =>
        rcases ht : lookupDim o.dimensions "time" with _ | tw
        · simp [rowOf, timeDimOf, hT, ht, truthyTime]
        · cases tw <;> simp [rowOf, timeDimOf, hT, ht, truthyTime]
      | obj i lab => simp [rowOf, timeDimOf, hT, truthyTime]
  · intro o hkeys
    have hT : lookupDim o.dimensions "Time" = none := by
      have hf : o.dimensions.find? (fun p => p.1 = "Time") = none := by
        rw [List.find?_eq_none]
        intro p hp
        simpa using (hkeys p hp).1
      simp [lookupDim, hf]
    have ht : lookupDim o.dimensions "time" = none := by
      have hf : o.dimensions.find? (fun p => p.1 = "time") = none := by
        rw [List.find?_eq_none]
        intro p hp
        simpa using (hkeys p hp).2
      simp [lookupDim, hf]
    simp [rowOf, timeDimOf, hT, ht, truthyTime]
  · intro o l h
    simp [rowsOf, List.filterMap_cons, h]

/-- Witness for the amended C4: an exact `"Time"` key is kept; a dropped
observation vanishes from the series. -/
theorem c4_time_key_lookup_witness :
    ((rowOf ⟨[("Time", .obj (some "2024") (some "Jan-24"))], some "1"⟩).isSome = true ↔
      (truthyTime (lookupDim [("Time", TimeVal.obj (some "2024") (some "Jan-24"))] "Time") = true ∨
       truthyTime (lookupDim [("Time", TimeVal.obj (some "2024") (some "Jan-24"))] "time") = true)) ∧
    rowsOf (⟨[("TIME", .obj none none)], none⟩ :: []) = rowsOf [] :=
  ⟨c4_time_key_lookup.1 ⟨[("Time", .obj (some "2024") (some "Jan-24"))], some "1"⟩,
   c4_time_key_lookup.2.2 ⟨[("TIME", .obj none none)], none⟩ [] (by decide)⟩

/-- Counterexample to **C5** as stated: two catalog runs whose option
responses differ in the dimension label and in the declared `total_count`
(500 declared against 2 retrieved — an under-fetch — versus 2 declared)
return identical values: the returned mapping carries neither the label nor
either count, so the caller cannot detect the under-fetch from it. -/
theorem c5_counterexample :
    explore_dimensions [⟨some "geography", some "Geography", some "geo-id"⟩]
        (fun _ => ⟨[⟨some "K02000001", some "United Kingdom"⟩,
                    ⟨some "W92000004", some "Wales"⟩], some 500⟩)
      = explore_dimensions [⟨some "geography", none, some "geo-id"⟩]
        (fun _ => ⟨[⟨some "K02000001", some "United Kingdom"⟩,
                    ⟨some "W92000004", some "Wales"⟩], some 2⟩) ∧
    explore_dimensions [⟨some "geography", some "Geography", some "geo-id"⟩]
        (fun _ => ⟨[⟨some "K02000001", some "United Kingdom"⟩,
                    ⟨some "W92000004", some "Wales"⟩], some 500⟩)
      = [("geography", [(some "K02000001", "United Kingdom"),
                        (some "W92000004", "Wales")])] :=
  ⟨rfl, rfl⟩

/-- **C5 (amended)**: `explore_dimensions` returns only the mapping from
dimension name to its option-id → option-label dict; the dimension's label
and the API-declared total option count are printed to the console but are
not part of the return value — the result is invariant under erasing them,
so an under-fetch is not detectable from the returned catalog. -/
theorem c5_catalog_return (dims : List DimItem) (optFetch : String → OptionsResp) :
    explore_dimensions dims optFetch =
      explore_dimensions (dims.map stripDimMeta) (fun u => stripTotal (optFetch u)) :=
  (exploreDimensionsGo_strip optFetch dims []).symm

/-- Counterexample to **C2** as stated: a series with one `%b-%y` label and
one label no parse resolves mixes orderings within one result.  The returned
series is *not* in raw-period-id order (`"a" < "b"` but the `"b"` row comes
first): the parseable row was placed chronologically while the unparseable
row was pushed to the end by the `NaT`-last placement rule — two different
per-item rules inside one result. -/
theorem c2_counterexample :
    get_observations (some [⟨[("time", .obj (some "a") (some "zzz"))], some "1"⟩,
                            ⟨[("time", .obj (some "b") (some "Jan-24"))], some "2"⟩])
      = [⟨"b", "Jan-24", some 2⟩, ⟨"a", "zzz", some 1⟩] ∧
    parse_period "zzz" = none ∧
    parse_period "Jan-24" = some 20240101 ∧
    sortByPeriod ((rowsOf [⟨[("time", .obj (some "a") (some "zzz"))], some "1"⟩,
                           ⟨[("time", .obj (some "b") (some "Jan-24"))], some "2"⟩]).map coerceRow)
      = [⟨"a", "zzz", some 1⟩, ⟨"b", "Jan-24", some 2⟩] ∧
    ¬ get_observations (some [⟨[("time", .obj (some "a") (some "zzz"))], some "1"⟩,
                              ⟨[("time", .obj (some "b") (some "Jan-24"))], some "2"⟩])
      = sortByPeriod ((rowsOf [⟨[("time", .obj (some "a") (some "zzz"))], some "1"⟩,
                               ⟨[("time", .obj (some "b") (some "Jan-24"))], some "2"⟩]).map coerceRow) := by
  decide

/-- **C2 (amended)**: the per-series dichotomy is between *some label parses*
and *no label parses*, not between per-item strategies being uniform: when no
label of the series parses (04: neither `%b-%y` nor the mixed parse; 03:
likewise), the whole series is sorted by raw period id; when every label
parses the series is chronologically sorted; but the parse itself is applied
per item (04 even tries `%b-%y` and the mixed format independently per item),
and a partially parseable series is sorted by parsed date with unparseable
(`NaT`) items placed last — a mixed per-item order within one result. -/
theorem c2_sort_strategy :
    (∀ l : List ObsItem, (∀ r ∈ rowsOf l, parse_period r.period_label = none) →
        List.Sorted (fun a b : NumRow => strLe a.period b.period = true)
            (get_observations (some l)) ∧
        List.Perm (get_observations (some l)) ((rowsOf l).map coerceRow)) ∧
    (∀ l : List ObsItem, (∃ r ∈ rowsOf l, (parse_period r.period_label).isSome = true) →
        List.Sorted (fun a b : NumRow =>
            natKey (parse_period a.period_label) ≤ natKey (parse_period b.period_label))
            (get_observations (some l)) ∧
        List.Perm (get_observations (some l)) ((rowsOf l).map coerceRow)) ∧
    (∀ l : List ObsItem, (∀ r ∈ rowsOf l, (parseMonYY r.period_label).isSome = true) →
        List.Sorted (fun a b : NumRow =>
            natKey (parseMonYY a.period_label) ≤ natKey (parseMonYY b.period_label))
            (download_observations l) ∧
        List.Perm (download_observations l) ((rowsOf l).map coerceRow)) ∧
    (∀ l : List ObsItem,
        (∀ r ∈ rowsOf l, parseMonYY r.period_label = none ∧ parseMixed r.period_label = none) →
        List.Sorted (fun a b : NumRow => strLe a.period b.period = true)
            (download_observations l) ∧
        List.Perm (download_observations l) ((rowsOf l).map coerceRow)) := by
  refine ⟨?_, ?_, ?_, ?_⟩
  · intro l h
    cases hL : rowsOf l with
    | nil =>
      rw [get_observations_eq, hL]
      exact ⟨List.sorted_nil, List.Perm.refl _⟩
    | cons a t =>
      rw [← hL]
      have hemp : (rowsOf l).isEmpty = false := by rw [hL]; rfl
      have hany : (((rowsOf l).map coerceRow).map
          (fun r => parse_period r.period_label)).any (fun x => x.isSome) = false := by
        rw [List.any_eq_false]
        intro x hx
        simp only [List.map_map, List.mem_map, Function.comp] at hx
        obtain ⟨r, hr, rfl⟩ := hx
        simp [coerceRow, h r hr]
      rw [get_observations_eq, hemp, if_neg Bool.false_ne_true, hany,
        if_neg Bool.false_ne_true]
      exact ⟨sortByPeriod_sorted _, sortByPeriod_perm _⟩
  · intro l h
    obtain ⟨r, hr, hsome⟩ := h
    have hemp : (rowsOf l).isEmpty = false := by
      cases hL : rowsOf l with
      | nil => rw [hL] at hr; exact absurd hr (List.not_mem_nil r)
      | cons a t => rfl
    have hmem1 : coerceRow r ∈ (rowsOf l).map coerceRow :=
      List.mem_map_of_mem coerceRow hr
    have hmem2 : parse_period r.period_label ∈ ((rowsOf l).map coerceRow).map
        (fun r => parse_period r.period_label) :=
      List.mem_map_of_mem (fun r => parse_period r.period_label) hmem1
    have hany : (((rowsOf l).map coerceRow).map
        (fun r => parse_period r.period_label)).any (fun x => x.isSome) = true :=
      List.any_eq_true.mpr ⟨parse_period r.period_label, hmem2, hsome⟩
    rw [get_observations_eq, hemp, if_neg Bool.false_ne_true, hany, if_pos rfl]
    exact ⟨sortByParsed_sorted _ _, sortByParsed_perm _ _⟩
  · intro l h
    cases hL : rowsOf l with
    | nil =>
      rw [download_observations_eq, hL]
      exact ⟨List.sorted_nil, List.Perm.refl _⟩
    | cons a t =>
      rw [← hL]
      have hemp : (rowsOf l).isEmpty = false := by rw [hL]; rfl
      have hall : ((rowsOf l).map coerceRow).all
          (fun r => (parseMonYY r.period_label).isSome) = true := by
        rw [List.all_eq_true]
        intro x hx
        simp only [List.mem_map] at hx
        obtain ⟨r, hr, rfl⟩ := hx
        simpa [coerceRow] using h r hr
      rw [download_observations_eq, hemp, if_neg Bool.false_ne_true, hall, if_pos rfl]
      exact ⟨sortByParsed_sorted _ _, sortByParsed_perm _ _⟩
  · intro l h
    cases hL : rowsOf l with
    | nil =>
      rw [download_observations_eq, hL]
      exact ⟨List.sorted_nil, List.Perm.refl _⟩
    | cons a t =>
      rw [← hL]
      have hemp : (rowsOf l).isEmpty = false := by rw [hL]; rfl
      have hmema : a ∈ rowsOf l := by rw [hL]; exact List.mem_cons_self a t
      have hall : ((rowsOf l).map coerceRow).all
          (fun r => (parseMonYY r.period_label).isSome) = false := by
        apply Bool.eq_false_iff.mpr
        intro hcontra
        rw [List.all_eq_true] at hcontra
        have hc := hcontra (coerceRow a) (List.mem_map_of_mem coerceRow hmema)
        rw [show (coerceRow a).period_label = a.period_label from rfl,
          (h a hmema).1] at hc
        simp at hc
      have hany : (((rowsOf l).map coerceRow).map
          (fun r => parseMixed r.period_label)).any (fun x => x.isSome) = false := by
        rw [List.any_eq_false]
        intro x hx
        simp only [List.map_map, List.mem_map, Function.comp] at hx
        obtain ⟨r, hr, rfl⟩ := hx
        simp [coerceRow, (h r hr).2]
      rw [download_observations_eq, hemp, if_neg Bool.false_ne_true, hall,
        if_neg Bool.false_ne_true, hany, if_neg Bool.false_ne_true]
      exact ⟨sortByPeriod_sorted _, sortByPeriod_perm _⟩

/-- Witness for the amended C2: a two-row series with no parseable label is
returned in raw-period-id order (as a permutation of its rows). -/
theorem c2_sort_strategy_witness :
    List.Sorted (fun a b : NumRow => strLe a.period b.period = true)
      (get_observations (some [⟨[("time", .obj (some "b") (some "x2"))], some "2"⟩,
                               ⟨[("time", .obj (some "a") (some "x1"))], some "1"⟩])) ∧
    List.Perm
      (get_observations (some [⟨[("time", .obj (some "b") (some "x2"))], some "2"⟩,
                               ⟨[("time", .obj (some "a") (some "x1"))], some "1"⟩]))
      ((rowsOf [⟨[("time", .obj (some "b") (some "x2"))], some "2"⟩,
                ⟨[("time", .obj (some "a") (some "x1"))], some "1"⟩]).map coerceRow) :=
  c2_sort_strategy.1
    [⟨[("time", .obj (some "b") (some "x2"))], some "2"⟩,
     ⟨[("time", .obj (some "a") (some "x1"))], some "1"⟩]
    (by decide)

end OnsApi
